import Mathlib

/-!
Verification development for the Credential Registry publish action's
entity-graph core (`src/graphs.ts`, `src/utils.ts`, `src/ctdl.ts`).

The TypeScript operates on JSON-LD documents: open attribute maps whose
values are strings, arrays, nested objects, or other JSON scalars.  We
embed documents as insertion-ordered association lists (matching the
enumeration order of JavaScript object keys), and the handful of JSON
scalar shapes the code branches on as an inductive `JVal`.

Modeling conventions, noted once here:
* identifiers (`@id`), ctids and `ceterms:sameAs` elements are modeled as
  strings when present; the action's JSON-LD inputs use strings for these
  fields, and non-string values there would be coerced or crash in JS;
* `null` property values (which would raise a TypeError in several code
  paths) are not modeled; `jother b` stands for the remaining JSON
  scalars (numbers, booleans), with `b` their JS truthiness;
* `uuidv4()` blank-node minting is modeled by a fresh-name counter;
* the network is an oracle `String → Option Entity`: `none` is a non-ok
  HTTP response, `some body` an ok response with that JSON body.
-/

set_option autoImplicit false

inductive JVal where
  | jstr : String → JVal
  | jarr : List JVal → JVal
  | jobj : List (String × JVal) → JVal
  | jother : Bool → JVal
deriving Repr

/-- Entities are JS objects: insertion-ordered association lists. -/
abbrev Entity := List (String × JVal)

namespace JVal

/-- JS truthiness of a possibly-absent value (`undefined` is falsy). -/
def truthy : Option JVal → Bool
  | none => false
  | some (jstr s) => s ≠ ""
  | some (jarr _) => true
  | some (jobj _) => true
  | some (jother b) => b

/-- Strict equality (`===`) between a JSON value and a string. -/
def eqStr : JVal → String → Bool
  | jstr s, t => s = t
  | _, _ => false

end JVal

open JVal

/-- Object property read: first binding wins (JS keys are unique anyway). -/
def getK (e : Entity) (k : String) : Option JVal :=
  (e.find? (fun kv => kv.1 = k)).map (·.2)

/-- Object property read when a string is expected. -/
def getStr (e : Entity) (k : String) : Option String :=
  match getK e k with
  | some (jstr s) => some s
  | _ => none

/-- Object spread/assignment `{...e, k: v}`: replace the binding in
place when the key exists (JS keeps the original key position), else
append the new binding. -/
def setK (e : Entity) (k : String) (v : JVal) : Entity :=
  if e.any (fun kv => kv.1 = k) then
    e.map (fun kv => if kv.1 = k then (k, v) else kv)
  else
    e ++ [(k, v)]

/-- Source `arrayOf` (utils.ts): wrap a non-array value in a singleton. -/
def arrayOf : JVal → List JVal
  | jarr l => l
  | v => [v]

/-- Read a property as `arrayOf(e[k] ?? [])` does. -/
def arrayOfK (e : Entity) (k : String) : List JVal :=
  match getK e k with
  | none => []
  | some v => arrayOf v

/-- JS `String.prototype.startsWith`. -/
def jsStartsWith (s pre : String) : Bool :=
  pre.toList.isPrefixOf s.toList

/-- Occurrence of a needle anywhere in a character list. -/
def charsContain (needle : List Char) : List Char → Bool
  | [] => needle.isEmpty
  | c :: cs => needle.isPrefixOf (c :: cs) || charsContain needle cs

/-- JS `String.prototype.includes`: substring containment. -/
def jsIncludesSub (s sub : String) : Bool :=
  charsContain sub.toList s.toList

/-- JS `String.prototype.toLowerCase` (ASCII suffices here). -/
def jsToLower (s : String) : String :=
  String.mk (s.toList.map Char.toLower)

/-- Registry configuration; only the base URL is consulted by the
embedded core (the other `RegistryConfig` fields configure transport). -/
structure RC where
  registryBaseUrl : String
deriving Repr, DecidableEq

/-- Source `replaceIdWithRegistryId` (utils.ts): rewrite `@id` to the
ctid-based registry identifier, preserving a non-blank original `@id` in
`ceterms:sameAs`. -/
def replaceIdWithRegistryId (entity : Entity) (rc : RC) : Entity :=
  let id? := getStr entity "@id"
  let ctid? := getStr entity "ceterms:ctid"
  let ctidBasedId := rc.registryBaseUrl ++ "/resources/" ++ ctid?.getD "undefined"
  match id?, ctid? with
  | some id, some ctid =>
    if id = "" ∨ ctid = "" ∨ id = ctidBasedId then entity
    else
      let e1 := setK entity "@id" (jstr ctidBasedId)
      if jsStartsWith id "_:" then e1
      else setK e1 "ceterms:sameAs" (jarr (arrayOfK entity "ceterms:sameAs" ++ [jstr id]))
  | _, _ => entity

/-- Source `decorateIndex` (utils.ts). -/
def decorateIndex (index : Nat) : String :=
  if index > 0 then "[" ++ toString index ++ "]" else ""

/-- Registry base URLs in `Object.values(RegistryBaseUrls)` order
(types.ts: sandbox, staging, production). -/
def registryBaseUrlsList : List String :=
  [ "https://sandbox.credentialengineregistry.org"
  , "https://staging.credentialengineregistry.org"
  , "https://credentialengineregistry.org" ]

/-- Hex digit as matched by `[0-9a-f]` after case folding. -/
def isHexLower (c : Char) : Bool :=
  c.isDigit || ('a' ≤ c && c ≤ 'f')

/-- Does the character list start with `ce-` followed by 8-4-4-12 hex
groups, the exact (four-group) shape of the regex in
`extractCtidFromUrl`? -/
def ctidShapeAt (cs : List Char) : Bool :=
  match cs with
  | 'c' :: 'e' :: '-' :: rest =>
    let g1 := rest.take 8
    let r1 := rest.drop 8
    g1.length = 8 && g1.all isHexLower &&
    match r1 with
    | '-' :: r2 =>
      let g2 := r2.take 4
      let r3 := r2.drop 4
      g2.length = 4 && g2.all isHexLower &&
      match r3 with
      | '-' :: r4 =>
        let g3 := r4.take 4
        let r5 := r4.drop 4
        g3.length = 4 && g3.all isHexLower &&
        match r5 with
        | '-' :: r6 =>
          let g4 := r6.take 12
          g4.length = 12 && g4.all isHexLower
        | _ => false
      | _ => false
    | _ => false
  | _ => false

/-- Scan for an (unanchored, case-folded) occurrence of
`env ++ "/resources/" ++ <ctid shape>` in the character list. -/
def envResourceScan (needle : List Char) : List Char → Bool
  | [] => needle.isPrefixOf [] && ctidShapeAt []
  | c :: cs =>
    (needle.isPrefixOf (c :: cs) && ctidShapeAt ((c :: cs).drop needle.length)) ||
    envResourceScan needle cs

/-- Does `url` match the case-insensitive regex
`` `${env}/resources/(ce-[0-9a-f]{8}-[0-9a-f]{4}-[0-9a-f]{4}-[0-9a-f]{12})` ``? -/
def envCtidRegexMatches (env url : String) : Bool :=
  envResourceScan (jsToLower env ++ "/resources/").toList (jsToLower url).toList

/-- Source `extractCtidFromUrl` (utils.ts).  Note the faithful quirk:
the JS body is `Object.values(RegistryBaseUrls).find((env) => {...})`,
and `Array.prototype.find` returns the array ELEMENT (the environment
base URL) whose callback returned a truthy value — not the regex capture
`match[1]` the callback computes.  So on a match this returns the
matched environment's base URL, not the ctid. -/
def extractCtidFromUrl (url : String) : Option String :=
  registryBaseUrlsList.find? (fun env => envCtidRegexMatches env url)

/-! ## The entity store (`entityStore` in src/graphs.ts) -/

/-- Generic JS-object map update: replace in place or append. -/
def setAssoc {α : Type} (l : List (String × α)) (k : String) (v : α) : List (String × α) :=
  if l.any (fun kv => kv.1 = k) then
    l.map (fun kv => if kv.1 = k then (k, v) else kv)
  else l ++ [(k, v)]

/-- Generic JS-object map read. -/
def lookupAssoc {α : Type} (l : List (String × α)) (k : String) : Option α :=
  (l.find? (fun kv => kv.1 = k)).map (·.2)

/-- One record of the store (`StoreEntity` in src/graphs.ts); a missing
`sourceUrl` key is `none`. -/
structure StoreEntity where
  fetched : Bool
  entity : Entity
  processed : Bool
  sourceUrl : Option String
deriving Repr

/-- The mutable store: canonical records (in insertion order, as
`Object.values` enumerates them), the `ceterms:sameAs` equivalence
index, and the reference graph. -/
structure Store where
  entities : List (String × StoreEntity)
  sameAsIndex : List (String × String)
  entitiesReferencedBy : List (String × List String)
deriving Repr

def emptyStore : Store := ⟨[], [], []⟩

def Store.get (st : Store) (id : String) : Option StoreEntity :=
  lookupAssoc st.entities id

/-- Source `getByCtid`: first record (insertion order) whose entity's
`ceterms:ctid` is strictly equal to the given ctid. -/
def Store.getByCtid (st : Store) (ctid : String) : Option StoreEntity :=
  (st.entities.find? (fun kv =>
    match getK kv.2.entity "ceterms:ctid" with
    | some v => v.eqStr ctid
    | none => false)).map (·.2)

/-- JS `val.entity["ceterms:sameAs"]?.includes(idx)`: substring test
when `sameAs` is a string, element membership when it is an array,
falsy when the key is absent.  (Other shapes would throw in JS and are
not modeled.) -/
def sameAsIncludes (v : Option JVal) (idx : String) : Bool :=
  match v with
  | some (JVal.jstr s) => jsIncludesSub s idx
  | some (JVal.jarr l) => l.any (fun e => e.eqStr idx)
  | _ => false

/-- Source `getFuzzy`: exact `@id` match, then first `sameAs` match,
then (when a truthy ctid is supplied) first ctid match. -/
def Store.getFuzzy (st : Store) (idx : String) (ctid? : Option String) : Option StoreEntity :=
  match st.get idx with
  | some m => some m
  | none =>
    match (st.entities.find? (fun kv =>
        sameAsIncludes (getK kv.2.entity "ceterms:sameAs") idx)).map (·.2) with
    | some m => some m
    | none =>
      match ctid? with
      | some c => if c = "" then none else st.getByCtid c
      | none => none

/-- Source `addReference`: append the edge unless it is already
recorded for this source. -/
def Store.addReference (st : Store) (fr toId : String) : Store :=
  match lookupAssoc st.entitiesReferencedBy fr with
  | none => { st with entitiesReferencedBy := setAssoc st.entitiesReferencedBy fr [toId] }
  | some l =>
    if l.contains toId then st
    else { st with entitiesReferencedBy := setAssoc st.entitiesReferencedBy fr (l ++ [toId]) }

/-- JS truthiness of the optional `from` argument (empty string falsy). -/
def normFrom (from? : Option String) : Option String :=
  match from? with
  | some s => if s = "" then none else some s
  | none => none

/-- String elements of `arrayOf(e["ceterms:sameAs"] ?? [])`.  (JS would
coerce non-string elements to index keys; such elements are not
modeled.) -/
def sameAsStrings (e : Entity) : List String :=
  (arrayOfK e "ceterms:sameAs").filterMap (fun v =>
    match v with
    | JVal.jstr s => some s
    | _ => none)

/-- Source `registerEntity`: canonicalize the id, create or upgrade the
record (create when none exists, or when incoming `fetched`/`processed`
upgrades an unfetched/unprocessed record, else leave it untouched),
record the reference edge for a truthy `from`, and index every
`sameAs` value.  Returns the canonicalized entity (or `none` on the
early `if (!id) return` exit). -/
def Store.registerEntity (st : Store) (entity : Entity) (fetched : Bool) (rc : RC)
    (from? : Option String) (processed : Bool) : Option Entity × Store :=
  let newEnt := replaceIdWithRegistryId entity rc
  match getStr newEnt "@id" with
  | none => (none, st)
  | some id =>
    if id = "" then (none, st)
    else
      let st1 :=
        match lookupAssoc st.entities id with
        | none =>
          { st with entities := setAssoc st.entities id ⟨fetched, newEnt, processed, normFrom from?⟩ }
        | some old =>
          if (fetched && !old.fetched) || (processed && !old.processed) then
            { st with entities := setAssoc st.entities id ⟨fetched, newEnt, processed, normFrom from?⟩ }
          else st
      let st2 :=
        match normFrom from? with
        | some f => st1.addReference f id
        | none => st1
      let st3 :=
        { st2 with sameAsIndex := (sameAsStrings newEnt).foldl (fun m v => setAssoc m v id) st2.sameAsIndex }
      (some newEnt, st3)

/-- Source `entitiesThatReference`. -/
def Store.entitiesThatReference (st : Store) (id : String) : List String :=
  (st.entitiesReferencedBy.filter (fun kv => kv.2.contains id)).map (·.1)

/-- Source `reset`: clears all three structures. -/
def Store.reset (_st : Store) : Store := ⟨[], [], []⟩

/-! ## Schema oracle (src/ctdl.ts)

The class/property metadata is loaded from externally maintained
vocabulary files at build time; we parameterize the core over the
queries the code makes of it. -/

structure SchemaIndex where
  topLevelClassURIs : List String
  tlPointerProps : String → List String
  cpPointerProps : String → List String
  rangeForProperty : String → List String
  parents : List (String × String)

/-- Fueled transcription of the recursive walk in `classIsDescendantOf`
(src/ctdl.ts): equal class, else follow `classMetadata[c]?.subClassOf`,
with falsy (missing or empty) parents answering `false`.  The fuel
`parents.length + 1` is enough for every acyclic parent chain; on cyclic
metadata (where the JS recursion would never return) it answers
`false`. -/
def descendAux (ps : List (String × String)) : Nat → String → String → Bool
  | 0, _, _ => false
  | Nat.succ n, c, ancestor =>
    if c = ancestor then true
    else
      match lookupAssoc ps c with
      | none => false
      | some p =>
        if p = "" then false
        else if p = ancestor then true
        else descendAux ps n p ancestor

def classIsDescendantOf (si : SchemaIndex) (c ancestor : String) : Bool :=
  descendAux si.parents (si.parents.length + 1) c ancestor

/-! ## Entity processing (src/graphs.ts) -/

def ctdlContext : String := "https://credreg.net/ctdl/schema/context/json"

/-- Ambient effects of the processing pass: the global store, the
`core.error` log, the URLs handed to `httpClient.fetch`, and the
fresh-name counter standing in for `uuidv4()`. -/
structure Eff where
  store : Store
  errors : List String
  fetches : List String
  supply : Nat
deriving Repr

def logErr (eff : Eff) (msg : String) : Eff :=
  { eff with errors := eff.errors ++ [msg] }

def freshBlankId (n : Nat) : String := "_:b" ++ toString n

/-- Source `fetchAndRegisterEntity`: fetch a URL; on an ok response,
reject a wrong `@context` (error) and an `@id` differing from the URL
(error), register a ctid-less body as a fresh blank node (info only),
and otherwise register the body as fetched and return it.  A non-ok
response silently returns `undefined`. -/
def fetchAndRegisterEntity (net : String → Option Entity) (entityUrl : String) (rc : RC)
    (from? : Option String) (eff : Eff) : Option Entity × Eff :=
  let eff0 := { eff with fetches := eff.fetches ++ [entityUrl] }
  match net entityUrl with
  | none => (none, eff0)
  | some jsonData =>
    if ¬ ((getK jsonData "@context").map (fun v => v.eqStr ctdlContext)).getD false then
      (none, logErr eff0 ("Error fetching " ++ entityUrl ++
        ": the fetched entity does not have the expected CTDL context."))
    else if ¬ truthy (getK jsonData "ceterms:ctid") then
      let bid := freshBlankId eff0.supply
      let ent' := setK (setK jsonData "@id" (jstr bid)) "ceterms:sameAs"
        (jarr (arrayOfK jsonData "ceterms:sameAs" ++ [jstr entityUrl]))
      let res := eff0.store.registerEntity ent' false rc none false
      (none, { eff0 with store := res.2, supply := eff0.supply + 1 })
    else if ¬ (getStr jsonData "@id" = some entityUrl) then
      (none, logErr eff0 ("Error fetching " ++ entityUrl ++
        ": the fetched entity does not have an @id or it is not the same as the requested URL."))
    else
      let res := eff0.store.registerEntity jsonData true rc from? false
      (res.1, { eff0 with store := res.2 })

/-- Source `processConditionProfile`: resolve the string values of the
ConditionProfile's own top-level pointer properties in place.  Faithful
quirk kept: when a value matches the registry-URL pattern the
synthesized reference is pushed AND (no `else`) the URL is still
fetched and, on success, pushed again. -/
def processConditionProfile (net : String → Option Entity) (si : SchemaIndex) (rc : RC)
    (cp : Entity) (parentEntityId? : Option String) (eff : Eff) : Entity × Eff :=
  let pointers := si.tlPointerProps "ceterms:ConditionProfile"
  pointers.foldl (fun acc prop =>
    let ret := acc.1
    let effA := acc.2
    if truthy (getK cp prop) then
      let vals := arrayOf ((getK cp prop).getD (jarr []))
      let inner := vals.foldl (fun acc2 propValue =>
        let tmp := acc2.1
        let effB := acc2.2
        match propValue with
        | jstr v =>
          match effB.store.getFuzzy v none with
          | some matching => (tmp ++ [(getK matching.entity "@id").getD (jother false)], effB)
          | none =>
            if jsStartsWith v "http" then
              let tmp1 :=
                match extractCtidFromUrl v with
                | some envHit => tmp ++ [jstr (rc.registryBaseUrl ++ "/resources/" ++ envHit)]
                | none => tmp
              let fr := fetchAndRegisterEntity net v rc parentEntityId? effB
              match fr.1 with
              | some newEnt => (tmp1 ++ [(getK newEnt "@id").getD (jother false)], fr.2)
              | none => (tmp1, fr.2)
            else (tmp, effB)
        | _ => (tmp, effB)) ([], effA)
      (setK ret prop (jarr inner.1), inner.2)
    else acc) (cp, eff)

/-- Outcome of resolving one value of one pointer property. -/
inductive ValRes where
  | push : List JVal → Eff → ValRes
  | abortUndef : Eff → ValRes
  | crash : Eff → ValRes

/-- String branch of `processEntity`'s value loop (graphs.ts lines
315-344): an already-resolvable reference is replaced by the stored
canonical id; a registry-URL-pattern match pushes the synthesized
reference without fetching; any other `http...` string is fetched and
registered — and `tempArray.push(newEntity["@id"])` is NOT null-guarded,
so a fetch that produced no entity raises a TypeError; all remaining
strings are dropped silently. -/
def resolveStringRef (net : String → Option Entity) (rc : RC) (docId? : Option String)
    (v : String) (eff : Eff) : ValRes :=
  match eff.store.getFuzzy v none with
  | some existingEntity =>
    ValRes.push [(getK existingEntity.entity "@id").getD (jother false)] eff
  | none =>
    match extractCtidFromUrl v with
    | some envHit => ValRes.push [jstr (rc.registryBaseUrl ++ "/resources/" ++ envHit)] eff
    | none =>
      if jsStartsWith v "http" then
        let fr := fetchAndRegisterEntity net v rc docId? eff
        match fr.1 with
        | some newEnt => ValRes.push [(getK newEnt "@id").getD (jother false)] fr.2
        | none => ValRes.crash fr.2
      else ValRes.push [] eff

/-- Object branch of `processEntity`'s value loop (graphs.ts lines
349-438): typeless values stay in place; out-of-range declared types
abort with an error; ConditionProfiles are resolved in place; top-level
values are hoisted into the store (as declared blank node, as
ctid-addressed reference, or under a freshly minted blank id) and
replaced by their identifier; anything else stays embedded. -/
def resolveObjectValue (net : String → Option Entity) (si : SchemaIndex) (rc : RC)
    (entityIdStr : String) (docId? : Option String) (prop : String) (index : Nat)
    (fields : Entity) (eff : Eff) : ValRes :=
  match getK fields "@type" with
  | some (jstr nodeType) =>
    if nodeType = "" then ValRes.push [jobj fields] eff
    else if ¬ (si.rangeForProperty prop).contains nodeType then
      ValRes.abortUndef (logErr eff ("Error: invalid value of type " ++ nodeType ++
        " for property " ++ prop ++ " " ++ decorateIndex index ++ " in entity " ++ entityIdStr))
    else if nodeType = "ceterms:ConditionProfile" then
      let r := processConditionProfile net si rc fields docId? eff
      ValRes.push [jobj r.1] r.2
    else if si.topLevelClassURIs.contains nodeType &&
        (match getStr fields "@id" with
         | some s => jsStartsWith s "_:"
         | none => false) then
      let res := eff.store.registerEntity fields false rc docId? false
      match res.1 with
      | some newEnt => ValRes.push [(getK newEnt "@id").getD (jother false)] { eff with store := res.2 }
      | none => ValRes.crash { eff with store := res.2 }
    else if si.topLevelClassURIs.contains nodeType &&
        (match getK fields "ceterms:ctid" with
         | some (jstr _) => true
         | _ => false) then
      let res := eff.store.registerEntity fields false rc docId? false
      match res.1 with
      | some newEnt => ValRes.push [(getK newEnt "@id").getD (jother false)] { eff with store := res.2 }
      | none => ValRes.crash { eff with store := res.2 }
    else if si.topLevelClassURIs.contains nodeType then
      let bid := freshBlankId eff.supply
      let base := setK fields "@id" (jstr bid)
      let ent' :=
        if truthy (getK fields "@id") then
          setK base "ceterms:sameAs"
            (jarr (arrayOfK fields "ceterms:sameAs" ++ [(getK fields "@id").getD (jother false)]))
        else base
      let eff1 := { eff with supply := eff.supply + 1 }
      let res := eff1.store.registerEntity ent' false rc docId? false
      match res.1 with
      | some newEnt => ValRes.push [(getK newEnt "@id").getD (jother false)] { eff1 with store := res.2 }
      | none => ValRes.crash { eff1 with store := res.2 }
    else ValRes.push [jobj fields] eff
  | _ => ValRes.push [jobj fields] eff

/-- Dispatch on the JS `typeof` of one property value: strings go to the
string branch; objects (`jobj`, and arrays, whose missing `@type` leaves
them in place) to the object branch; other scalars match neither branch
and are silently dropped. -/
def resolvePropValue (net : String → Option Entity) (si : SchemaIndex) (rc : RC)
    (entityIdStr : String) (docId? : Option String) (prop : String) (index : Nat)
    (propValue : JVal) (eff : Eff) : ValRes :=
  match propValue with
  | jstr v => resolveStringRef net rc docId? v eff
  | jobj fields => resolveObjectValue net si rc entityIdStr docId? prop index fields eff
  | jarr l => ValRes.push [jarr l] eff
  | jother _ => ValRes.push [] eff

inductive LoopRes where
  | done : List JVal → Eff → LoopRes
  | abortUndef : Eff → LoopRes
  | crash : Eff → LoopRes

/-- The `for (const [index, propValue] of propArray.entries())` loop. -/
def resolveValues (net : String → Option Entity) (si : SchemaIndex) (rc : RC)
    (entityIdStr : String) (docId? : Option String) (prop : String) :
    List JVal → Nat → List JVal → Eff → LoopRes
  | [], _, tmp, eff => LoopRes.done tmp eff
  | v :: vs, index, tmp, eff =>
    match resolvePropValue net si rc entityIdStr docId? prop index v eff with
    | ValRes.push l eff' => resolveValues net si rc entityIdStr docId? prop vs (index + 1) (tmp ++ l) eff'
    | ValRes.abortUndef eff' => LoopRes.abortUndef eff'
    | ValRes.crash eff' => LoopRes.crash eff'

inductive PropsRes where
  | ok : Entity → Eff → PropsRes
  | abortUndef : Eff → PropsRes
  | crash : Eff → PropsRes

/-- The `for (const prop of pointers)` loop: each pointer property with
a truthy value is replaced by the list of its values' resolutions. -/
def resolveProps (net : String → Option Entity) (si : SchemaIndex) (rc : RC)
    (entityIdStr : String) : List String → Entity → Eff → PropsRes
  | [], doc, eff => PropsRes.ok doc eff
  | p :: ps, doc, eff =>
    if truthy (getK doc p) then
      match resolveValues net si rc entityIdStr (getStr doc "@id") p
          (arrayOf ((getK doc p).getD (jarr []))) 0 [] eff with
      | LoopRes.done tmp eff' => resolveProps net si rc entityIdStr ps (setK doc p (jarr tmp)) eff'
      | LoopRes.abortUndef eff' => PropsRes.abortUndef eff'
      | LoopRes.crash eff' => PropsRes.crash eff'
    else resolveProps net si rc entityIdStr ps doc eff

/-- `new Set(a.concat(b))` iteration order: first occurrences. -/
def dedupKeepFirst (l : List String) : List String :=
  l.foldl (fun acc x => if acc.contains x then acc else acc ++ [x]) []

/-- Overall outcome of `processEntity`: the entity returned unchanged
(not a top-level class), `undefined` returned after a `core.error`
(validation failure), an uncaught TypeError, or the resolved document. -/
inductive POut where
  | unchanged : Entity → POut
  | failedUndef : POut
  | crashed : POut
  | ok : Entity → POut

/-- Primary type as `processEntity` computes it: the head of
`arrayOf(entity["@type"])` when it is a string.  (A missing `@type`
yields `[undefined]`, an empty array yields `[]`; in both cases, and for
a non-string head, `topLevelClassURIs.includes(entityType[0])` is false
and the entity is returned unchanged, which this collapse preserves.) -/
def primaryTypeStr (e : Entity) : Option String :=
  match getK e "@type" with
  | none => none
  | some v =>
    match (arrayOf v).head? with
    | some (jstr s) => some s
    | _ => none

/-- Canonicalization step of `processEntity` (graphs.ts lines 286-300):
when the `@id` is truthy and starts with neither
`{registryBaseUrl}/resources/` nor `_:`, move it into `ceterms:sameAs`
(removing equal entries first) and rewrite `@id` to the ctid-based
registry identifier.  A truthy non-string `@id` would raise a TypeError
at `.startsWith` (`none` result). -/
def canonicalizeDocId (entity : Entity) (rc : RC) : Option Entity :=
  match getK entity "@id" with
  | none => some entity
  | some (jstr s) =>
    if s = "" ∨ jsStartsWith s (rc.registryBaseUrl ++ "/resources/") ∨ jsStartsWith s "_:" then
      some entity
    else
      let d1 := setK entity "ceterms:sameAs"
        (jarr ((arrayOfK entity "ceterms:sameAs").filter (fun e => ¬ e.eqStr s) ++ [jstr s]))
      some (setK d1 "@id"
        (jstr (rc.registryBaseUrl ++ "/resources/" ++ (getStr entity "ceterms:ctid").getD "undefined")))
  | some v => if truthy (some v) then none else some entity

/-- Body of `processEntity` after the identity validation: canonicalize
`@id`, resolve every pointer property, and register the result as
fetched and processed (the returned document is the resolved one, not
the re-canonicalized store copy). -/
def processEntityBody (net : String → Option Entity) (si : SchemaIndex) (rc : RC)
    (entity : Entity) (t : String) (sourceGraphUrl : Option String) (eff : Eff) : POut × Eff :=
  let entityIdStr := (getStr entity "@id").getD "undefined"
  match canonicalizeDocId entity rc with
  | none => (POut.crashed, eff)
  | some doc0 =>
    let pointers := dedupKeepFirst (si.tlPointerProps t ++ si.cpPointerProps t)
    match resolveProps net si rc entityIdStr pointers doc0 eff with
    | PropsRes.ok doc eff' =>
      let res := eff'.store.registerEntity doc true rc sourceGraphUrl true
      (POut.ok doc, { eff' with store := res.2 })
    | PropsRes.abortUndef eff' => (POut.failedUndef, eff')
    | PropsRes.crash eff' => (POut.crashed, eff')

/-- Source `processEntity` (graphs.ts lines 269-447). -/
def processEntity (net : String → Option Entity) (si : SchemaIndex) (rc : RC)
    (entity : Entity) (sourceGraphUrl : Option String) (eff : Eff) : POut × Eff :=
  match primaryTypeStr entity with
  | none => (POut.unchanged entity, eff)
  | some t =>
    if ¬ si.topLevelClassURIs.contains t then (POut.unchanged entity, eff)
    else if ¬ truthy (getK entity "ceterms:ctid") then
      match getStr entity "@id" with
      | none => (POut.crashed, eff)
      | some idStr =>
        if ¬ jsStartsWith idStr "_:" then
          (POut.failedUndef, logErr eff ("No CTID found in entity " ++ idStr))
        else processEntityBody net si rc entity t sourceGraphUrl eff
    else processEntityBody net si rc entity t sourceGraphUrl eff

/-! ## Graph extraction and publication ordering (src/graphs.ts) -/

structure GraphDoc where
  context : String
  graph : List Entity
deriving Repr

/-- The `@type`-based part of the extraction filter:
`topLevelClassURIs.includes(arrayOf(e["@type"] ?? ["ceterms:Organization"])[0])`.
A missing `@type` defaults to the Organization class; an empty or
non-string head makes `includes` false. -/
def graphPrimaryIsTopLevel (si : SchemaIndex) (e : Entity) : Bool :=
  let tyList :=
    match getK e "@type" with
    | none => [jstr "ceterms:Organization"]
    | some v => arrayOf v
  match tyList.head? with
  | some (jstr s) => si.topLevelClassURIs.contains s
  | _ => false

/-- The `referencedEntities` computation of `extractGraphForEntity`:
the one-hop referenced ids (edge-insertion order), kept when the record
exists, its entity has a truthy `@id`, and it is blank-identified or
not of a top-level primary type. -/
def depKeep (si : SchemaIndex) (st : Store) (id : String) : Option Entity :=
  match (st.get id).map (·.entity) with
  | none => none
  | some e =>
    match getStr e "@id" with
    | some s =>
      if s ≠ "" ∧ (jsStartsWith s "_:" ∨ ¬ graphPrimaryIsTopLevel si e) then some e
      else none
    | none => none

def extractDeps (si : SchemaIndex) (st : Store) (entityId : String) : List Entity :=
  ((lookupAssoc st.entitiesReferencedBy entityId).getD []).filterMap (depKeep si st)

/-- Source `extractGraphForEntity`: `undefined` when no record exists,
else the CTDL context with a graph of the root entity followed by the
filtered referenced entities. -/
def extractGraphForEntity (si : SchemaIndex) (st : Store) (entityId : String) (_rc : RC) :
    Option GraphDoc :=
  match st.get entityId with
  | none => none
  | some record =>
    some ⟨ctdlContext, record.entity :: extractDeps si st entityId⟩

/-- Primary type as `getOrderedEntitiesToPublish` computes it:
`arrayOf(entity["@type"] ?? [""])[0]`. -/
def primaryTypeForPub (e : Entity) : Option String :=
  let tyList :=
    match getK e "@type" with
    | none => [jstr ""]
    | some v => arrayOf v
  match tyList.head? with
  | some (jstr s) => some s
  | _ => none

/-- First selection filter: the record's `@id` or one of its `sameAs`
values is among the run's source URLs. -/
def matchesUrls (urlsArray : List String) (r : StoreEntity) : Bool :=
  (match getStr r.entity "@id" with
   | some s => urlsArray.contains s
   | none => false) ||
  (arrayOfK r.entity "ceterms:sameAs").any (fun v =>
    match v with
    | jstr s => urlsArray.contains s
    | _ => false)

/-- Second selection filter: the record's primary type is top-level. -/
def isTopLevelForPub (si : SchemaIndex) (r : StoreEntity) : Bool :=
  match primaryTypeForPub r.entity with
  | some t => si.topLevelClassURIs.contains t
  | none => false

/-- Descendant test on a record's primary type (non-string primary
types make `classIsDescendantOf` answer false, as in the source). -/
def recDescendsFrom (si : SchemaIndex) (r : StoreEntity) (ancestor : String) : Bool :=
  match primaryTypeForPub r.entity with
  | some t => classIsDescendantOf si t ancestor
  | none => false

/-- The three-tier comparator passed to `.sort` (graphs.ts lines
521-537). -/
def pubComparator (si : SchemaIndex) (a b : StoreEntity) : Int :=
  let aIsOrg := recDescendsFrom si a "ceterms:Organization"
  let bIsOrg := recDescendsFrom si b "ceterms:Organization"
  if aIsOrg && !bIsOrg then -1
  else if !aIsOrg && bIsOrg then 1
  else
    let aIsCred := recDescendsFrom si a "ceterms:Credential"
    let bIsCred := recDescendsFrom si b "ceterms:Credential"
    if aIsCred && !bIsCred then -1
    else if !aIsCred && bIsCred then 1
    else 0

/-- Stable insertion: place `x` before the first element it compares
less-or-equal to. -/
def stableInsert {α : Type} (le : α → α → Bool) (x : α) : List α → List α
  | [] => [x]
  | y :: ys => if le x y then x :: y :: ys else y :: stableInsert le x ys

/-- A stable sort: `Array.prototype.sort` is required to be stable
(ES2019, node16 runtime), and for a consistent comparator any stable
sort computes the same list. -/
def stableSort {α : Type} (le : α → α → Bool) : List α → List α
  | [] => []
  | x :: xs => stableInsert le x (stableSort le xs)

def selectEntitiesToPublish (si : SchemaIndex) (st : Store) (urlsArray : List String) :
    List StoreEntity :=
  ((st.entities.map (·.2)).filter (matchesUrls urlsArray)).filter (isTopLevelForPub si)

/-- Source `getOrderedEntitiesToPublish`: filter the store's records
(in insertion order) to those reachable from the run's source URLs and
of top-level type, stably sort them with the three-tier comparator, and
return their `@id`s. -/
def getOrderedEntitiesToPublish (si : SchemaIndex) (st : Store) (urlsArray : List String) :
    List (Option JVal) :=
  (stableSort (fun a b => pubComparator si a b ≤ 0) (selectEntitiesToPublish si st urlsArray)).map
    (fun r => getK r.entity "@id")

theorem lookupAssoc_nil {α : Type} (k : String) : lookupAssoc ([] : List (String × α)) k = none := rfl

theorem lookupAssoc_cons_pos {α : Type} (hd : String × α) (tl : List (String × α)) (k : String)
    (hk : hd.1 = k) : lookupAssoc (hd :: tl) k = some hd.2 := by
  unfold lookupAssoc
  rw [List.find?_cons_of_pos]
  · rfl
  · simpa using hk

theorem lookupAssoc_cons_neg {α : Type} (hd : String × α) (tl : List (String × α)) (k : String)
    (hk : ¬ hd.1 = k) : lookupAssoc (hd :: tl) k = lookupAssoc tl k := by
  unfold lookupAssoc
  rw [List.find?_cons_of_neg]
  simpa using hk

theorem lookupAssoc_map_update {α : Type} (l : List (String × α)) (k : String) (v : α)
    (h : l.any (fun kv => kv.1 = k) = true) :
    lookupAssoc (l.map (fun kv => if kv.1 = k then (k, v) else kv)) k = some v := by
  induction l with
  | nil => simp at h
  | cons hd tl ih =>
    by_cases hk : hd.1 = k
    · rw [List.map_cons, if_pos hk, lookupAssoc_cons_pos]
      rfl
    · have h' : tl.any (fun kv => kv.1 = k) = true := by simpa [hk] using h
      rw [List.map_cons, if_neg hk, lookupAssoc_cons_neg _ _ _ hk]
      exact ih h'

theorem lookupAssoc_map_update_ne {α : Type} (l : List (String × α)) (k k' : String) (v : α)
    (h : k' ≠ k) :
    lookupAssoc (l.map (fun kv => if kv.1 = k then (k, v) else kv)) k' = lookupAssoc l k' := by
  induction l with
  | nil => simp
  | cons hd tl ih =>
    by_cases hk : hd.1 = k
    · rw [List.map_cons, if_pos hk, lookupAssoc_cons_neg _ _ _ (by simpa using Ne.symm h),
        lookupAssoc_cons_neg _ _ _ (by rw [hk]; exact Ne.symm h)]
      exact ih
    · by_cases hk' : hd.1 = k'
      · rw [List.map_cons, if_neg hk, lookupAssoc_cons_pos _ _ _ hk', lookupAssoc_cons_pos _ _ _ hk']
      · rw [List.map_cons, if_neg hk, lookupAssoc_cons_neg _ _ _ hk', lookupAssoc_cons_neg _ _ _ hk']
        exact ih

theorem lookupAssoc_append {α : Type} (l l' : List (String × α)) (k : String) :
    lookupAssoc (l ++ l') k =
      (match lookupAssoc l k with
       | some v => some v
       | none => lookupAssoc l' k) := by
  induction l with
  | nil => rfl
  | cons hd tl ih =>
    by_cases hk : hd.1 = k
    · rw [List.cons_append, lookupAssoc_cons_pos _ _ _ hk, lookupAssoc_cons_pos _ _ _ hk]
    · rw [List.cons_append, lookupAssoc_cons_neg _ _ _ hk, lookupAssoc_cons_neg _ _ _ hk]
      exact ih

theorem lookup_none_of_any_false {α : Type} (l : List (String × α)) (k : String)
    (h : l.any (fun kv => kv.1 = k) = false) : lookupAssoc l k = none := by
  induction l with
  | nil => rfl
  | cons hd tl ih =>
    simp only [List.any_cons, Bool.or_eq_false_iff] at h
    have hk : ¬ hd.1 = k := by simpa using h.1
    rw [lookupAssoc_cons_neg _ _ _ hk]
    exact ih h.2

theorem lookupAssoc_setAssoc_self {α : Type} (l : List (String × α)) (k : String) (v : α) :
    lookupAssoc (setAssoc l k v) k = some v := by
  unfold setAssoc
  by_cases h : l.any (fun kv => kv.1 = k) = true
  · rw [if_pos h]
    exact lookupAssoc_map_update l k v h
  · rw [if_neg h]
    have h0 : l.any (fun kv => kv.1 = k) = false := by
      cases hx : l.any (fun kv => kv.1 = k) with
      | true => exact absurd hx h
      | false => rfl
    have hf : lookupAssoc l k = none := lookup_none_of_any_false l k h0
    rw [lookupAssoc_append, hf]
    rw [lookupAssoc_cons_pos _ _ _ rfl]

theorem lookupAssoc_setAssoc_ne {α : Type} (l : List (String × α)) (k k' : String) (v : α)
    (h : k' ≠ k) : lookupAssoc (setAssoc l k v) k' = lookupAssoc l k' := by
  unfold setAssoc
  split
  · exact lookupAssoc_map_update_ne l k k' v h
  · rw [lookupAssoc_append]
    cases hx : lookupAssoc l k' with
    | some w => rfl
    | none =>
      rw [lookupAssoc_cons_neg _ _ _ (by simpa using Ne.symm h), lookupAssoc_nil]

theorem addReference_entities (st : Store) (a b : String) :
    (st.addReference a b).entities = st.entities := by
  unfold Store.addReference
  split
  · rfl
  · split <;> rfl

theorem addReference_sameAsIndex (st : Store) (a b : String) :
    (st.addReference a b).sameAsIndex = st.sameAsIndex := by
  unfold Store.addReference
  split
  · rfl
  · split <;> rfl

/-- Entities component of the registered store, in closed form. -/
theorem registerEntity_entities (st : Store) (e : Entity) (fetched processed : Bool)
    (rc : RC) (from? : Option String) (id : String)
    (hid : getStr (replaceIdWithRegistryId e rc) "@id" = some id) (hne : id ≠ "") :
    (st.registerEntity e fetched rc from? processed).2.entities =
      (match lookupAssoc st.entities id with
       | none => setAssoc st.entities id ⟨fetched, replaceIdWithRegistryId e rc, processed, normFrom from?⟩
       | some old =>
         if (fetched && !old.fetched) || (processed && !old.processed) then
           setAssoc st.entities id ⟨fetched, replaceIdWithRegistryId e rc, processed, normFrom from?⟩
         else st.entities) := by
  unfold Store.registerEntity
  simp only [hid, if_neg hne]
  cases h : lookupAssoc st.entities id with
  | none =>
    simp only [h]
    cases normFrom from? with
    | none => rfl
    | some f => simp [addReference_entities]
  | some old =>
    simp only [h]
    by_cases hcond : ((fetched && !old.fetched) || (processed && !old.processed)) = true
    · simp only [if_pos hcond]
      cases normFrom from? with
      | none => rfl
      | some f => simp [addReference_entities]
    · simp only [if_neg hcond]
      cases normFrom from? with
      | none => rfl
      | some f => simp [addReference_entities]

/-- Record lookup after a register operation, in closed form. -/
theorem registerEntity_get (st : Store) (e : Entity) (fetched processed : Bool)
    (rc : RC) (from? : Option String) (k : String) :
    (st.registerEntity e fetched rc from? processed).2.get k =
      (match getStr (replaceIdWithRegistryId e rc) "@id" with
       | none => st.get k
       | some id =>
         if id = "" then st.get k
         else if k = id then
           (match st.get id with
            | none => some ⟨fetched, replaceIdWithRegistryId e rc, processed, normFrom from?⟩
            | some old =>
              if (fetched && !old.fetched) || (processed && !old.processed) then
                some ⟨fetched, replaceIdWithRegistryId e rc, processed, normFrom from?⟩
              else some old)
         else st.get k) := by
  cases hid : getStr (replaceIdWithRegistryId e rc) "@id" with
  | none =>
    unfold Store.registerEntity
    simp only [hid]
  | some id =>
    by_cases hne : id = ""
    · unfold Store.registerEntity
      simp only [hid, hne, if_pos rfl]
      simp
    · have hent := registerEntity_entities st e fetched processed rc from? id hid hne
      unfold Store.get
      rw [hent]
      simp only [if_neg hne]
      by_cases hk : k = id
      · subst hk
        cases h : lookupAssoc st.entities k with
        | none => simp [h, lookupAssoc_setAssoc_self]
        | some old =>
          by_cases hcond : ((fetched && !old.fetched) || (processed && !old.processed)) = true
          · simp [h, hcond, lookupAssoc_setAssoc_self]
          · simp [h, hcond]
      · cases h : lookupAssoc st.entities id with
        | none => simp [h, hk, lookupAssoc_setAssoc_ne _ _ _ _ hk]
        | some old =>
          by_cases hcond : ((fetched && !old.fetched) || (processed && !old.processed)) = true
          · simp [h, hk, hcond, lookupAssoc_setAssoc_ne _ _ _ _ hk]
          · simp [h, hk, hcond]

/-! ## Shared concrete fixtures -/

def rcSandbox : RC := ⟨"https://sandbox.credentialengineregistry.org"⟩

def entA : Entity :=
  [("@id", jstr "https://example.com/a"), ("@type", jstr "ceterms:Credential"),
   ("ceterms:ctid", jstr "ce-1234"),
   ("ceterms:sameAs", jarr [jstr "https://example.com/alias"])]

def entNoCtid : Entity :=
  [("@id", jstr "https://example.com/a"), ("@type", jstr "ceterms:Credential")]

/-- C3: a register call on a canonical identifier that already has a
record replaces the stored record exactly when the incoming
registration is more authoritative (incoming fetched upgrading an
unfetched record, or incoming processed upgrading an unprocessed one);
otherwise the existing record is returned untouched; with no existing
record a new one is created. -/
theorem c3_registerEntity_upgrade_rule (st : Store) (e : Entity) (fetched processed : Bool)
    (rc : RC) (from? : Option String) (id : String)
    (hid : getStr (replaceIdWithRegistryId e rc) "@id" = some id) (hne : id ≠ "") :
    (∀ old, st.get id = some old →
      (st.registerEntity e fetched rc from? processed).2.get id =
        (if (fetched && !old.fetched) || (processed && !old.processed) then
          some ⟨fetched, replaceIdWithRegistryId e rc, processed, normFrom from?⟩
        else some old)) ∧
    (st.get id = none →
      (st.registerEntity e fetched rc from? processed).2.get id =
        some ⟨fetched, replaceIdWithRegistryId e rc, processed, normFrom from?⟩) := by
  have hg := registerEntity_get st e fetched processed rc from? id
  rw [hid] at hg
  simp only [if_neg hne, if_pos rfl] at hg
  constructor
  · intro old hold
    rw [hold] at hg
    exact hg
  · intro hn
    rw [hn] at hg
    exact hg

/-- Witness for C3: registering a fresh entity creates its record, and
re-registering it without an upgrade leaves the first record in place. -/
theorem c3_registerEntity_upgrade_rule_witness :
    (emptyStore.registerEntity entA true rcSandbox none false).2.get
        "https://sandbox.credentialengineregistry.org/resources/ce-1234" =
      some ⟨true, replaceIdWithRegistryId entA rcSandbox, false, none⟩ :=
  (c3_registerEntity_upgrade_rule emptyStore entA true false rcSandbox none
    "https://sandbox.credentialengineregistry.org/resources/ce-1234" rfl (by decide)).2 rfl

/-! ## Register-operation sequences (for the processed-flag invariant) -/

structure RegOp where
  entity : Entity
  fetched : Bool
  rc : RC
  from? : Option String
  processed : Bool

def applyRegOps (st : Store) : List RegOp → Store
  | [] => st
  | op :: ops => applyRegOps (st.registerEntity op.entity op.fetched op.rc op.from? op.processed).2 ops

/-- Every record with `processed` set was obtained by direct fetch.
This holds at every call site of `registerEntity` in the repository:
`processed=true` is only ever passed together with `fetched=true`. -/
def processedImpliesFetched (st : Store) : Prop :=
  ∀ k r, st.get k = some r → r.processed = true → r.fetched = true

/-- One disciplined register call preserves the invariant and leaves
every already-processed record untouched. -/
theorem registerEntity_processed_step (st : Store) (op : RegOp)
    (hdisc : op.processed = true → op.fetched = true)
    (hinv : processedImpliesFetched st) :
    processedImpliesFetched (st.registerEntity op.entity op.fetched op.rc op.from? op.processed).2 ∧
    (∀ id r, st.get id = some r → r.processed = true →
      (st.registerEntity op.entity op.fetched op.rc op.from? op.processed).2.get id = some r) := by
  constructor
  · intro k r hr hp
    have hg := registerEntity_get st op.entity op.fetched op.processed op.rc op.from? k
    cases hid : getStr (replaceIdWithRegistryId op.entity op.rc) "@id" with
    | none =>
      rw [hid] at hg
      simp only [] at hg
      rw [hg] at hr
      exact hinv k r hr hp
    | some id =>
      rw [hid] at hg
      by_cases hne : id = ""
      · simp only [if_pos hne] at hg
        rw [hg] at hr
        exact hinv k r hr hp
      · simp only [if_neg hne] at hg
        by_cases hk : k = id
        · simp only [if_pos hk] at hg
          cases hold : st.get id with
          | none =>
            rw [hold] at hg
            simp only [] at hg
            rw [hg] at hr
            injection hr with hr'
            subst hr'
            exact hdisc hp
          | some old =>
            rw [hold] at hg
            simp only [] at hg
            by_cases hcond : ((op.fetched && !old.fetched) || (op.processed && !old.processed)) = true
            · rw [if_pos hcond] at hg
              rw [hg] at hr
              injection hr with hr'
              subst hr'
              exact hdisc hp
            · rw [if_neg hcond] at hg
              rw [hg] at hr
              injection hr with hr'
              subst hr'
              exact hinv id old hold hp
        · simp only [if_neg hk] at hg
          rw [hg] at hr
          exact hinv k r hr hp
  · intro id r hr hp
    have hg := registerEntity_get st op.entity op.fetched op.processed op.rc op.from? id
    cases hid : getStr (replaceIdWithRegistryId op.entity op.rc) "@id" with
    | none =>
      rw [hid] at hg
      simp only [] at hg
      rw [hg]
      exact hr
    | some id' =>
      rw [hid] at hg
      by_cases hne : id' = ""
      · simp only [if_pos hne] at hg
        rw [hg]
        exact hr
      · simp only [if_neg hne] at hg
        by_cases hk : id = id'
        · simp only [if_pos hk] at hg
          rw [← hk, hr] at hg
          have hf : r.fetched = true := hinv id r hr hp
          have hcond : ((op.fetched && !r.fetched) || (op.processed && !r.processed)) = false := by
            rw [hf, hp]
            simp
          simp only [] at hg
          rw [hcond] at hg
          simp only [Bool.false_eq_true, if_neg (by simp : ¬ False)] at hg
          rw [hg]
        · simp only [if_neg hk] at hg
          rw [hg]
          exact hr

/-- C4 (amended): under the register-call discipline every call site of
the repository obeys (`processed=true` only together with
`fetched=true`), a record whose `processed` flag is set is never
replaced by any later register operation, so the flag never transitions
true→false; and a full store reset removes every record. -/
theorem c4_processed_flag_monotone_under_call_discipline (ops : List RegOp)
    (hops : ∀ op ∈ ops, op.processed = true → op.fetched = true) :
    (∀ st, processedImpliesFetched st →
      ∀ id r, st.get id = some r → r.processed = true →
        (applyRegOps st ops).get id = some r) ∧
    (∀ st : Store, ∀ id, (Store.reset st).get id = none) := by
  constructor
  · induction ops with
    | nil =>
      intro st _ id r hr _
      exact hr
    | cons op ops ih =>
      intro st hinv id r hr hp
      have hstep := registerEntity_processed_step st op (hops op (by simp)) hinv
      exact ih (fun o ho => hops o (by simp [ho])) _ hstep.1 id r (hstep.2 id r hr hp) hp
  · intro st id
    rfl

/-- Witness for C4 (amended): a record registered as fetched and
processed survives a later unprocessed re-registration untouched. -/
theorem c4_processed_flag_monotone_witness :
    (applyRegOps
        ((emptyStore.registerEntity entNoCtid true rcSandbox none true).2)
        [⟨entNoCtid, true, rcSandbox, none, false⟩]).get "https://example.com/a" =
      some ⟨true, entNoCtid, true, none⟩ :=
  (c4_processed_flag_monotone_under_call_discipline
      [⟨entNoCtid, true, rcSandbox, none, false⟩]
      (fun op hop => by
        simp only [List.mem_singleton] at hop
        subst hop
        intro h
        exact absurd h (by decide))).1
    (emptyStore.registerEntity entNoCtid true rcSandbox none true).2
    (fun k r hr hp => by
      by_cases hk : k = "https://example.com/a"
      · subst hk
        rw [show (emptyStore.registerEntity entNoCtid true rcSandbox none true).2.get
              "https://example.com/a" = some ⟨true, entNoCtid, true, none⟩ from rfl] at hr
        injection hr with hr'
        subst hr'
        rfl
      · rw [show (emptyStore.registerEntity entNoCtid true rcSandbox none true).2.get k =
              lookupAssoc [("https://example.com/a", (⟨true, entNoCtid, true, none⟩ : StoreEntity))] k from rfl,
            lookupAssoc_cons_neg _ _ _ (by simpa using Ne.symm hk), lookupAssoc_nil] at hr
        exact absurd hr (by simp))
    "https://example.com/a" ⟨true, entNoCtid, true, none⟩ rfl rfl

/-- Counterexample to C4 as stated: with arbitrary flag combinations a
register sequence CAN reset `processed` from true to false — a
`fetched=false, processed=true` record is replaced by a later
`fetched=true, processed=false` registration through the
fetched-upgrade clause. -/
theorem c4_processed_flag_counterexample :
    ((applyRegOps emptyStore [⟨entNoCtid, false, rcSandbox, none, true⟩]).get
        "https://example.com/a").map (·.processed) = some true ∧
    ((applyRegOps emptyStore
        [⟨entNoCtid, false, rcSandbox, none, true⟩,
         ⟨entNoCtid, true, rcSandbox, none, false⟩]).get
        "https://example.com/a").map (·.processed) = some false :=
  ⟨rfl, rfl⟩

/-- SameAs-index component of the registered store, in closed form. -/
theorem registerEntity_sameAsIndex (st : Store) (e : Entity) (fetched processed : Bool)
    (rc : RC) (from? : Option String) (id : String)
    (hid : getStr (replaceIdWithRegistryId e rc) "@id" = some id) (hne : id ≠ "") :
    (st.registerEntity e fetched rc from? processed).2.sameAsIndex =
      (sameAsStrings (replaceIdWithRegistryId e rc)).foldl (fun m v => setAssoc m v id)
        st.sameAsIndex := by
  unfold Store.registerEntity
  simp only [hid, if_neg hne]
  cases h : lookupAssoc st.entities id with
  | none =>
    cases hf : normFrom from? with
    | none => rfl
    | some f => simp [addReference_sameAsIndex]
  | some old =>
    by_cases hcond : ((fetched && !old.fetched) || (processed && !old.processed)) = true
    · cases hf : normFrom from? with
      | none => simp [hcond]
      | some f => simp [hcond, addReference_sameAsIndex]
    · cases hf : normFrom from? with
      | none => simp [hcond]
      | some f => simp [hcond, addReference_sameAsIndex]

/-- Lookup after writing one value for every key in a list. -/
theorem lookup_foldl_setAssoc (l : List String) (m : List (String × String)) (id v : String) :
    lookupAssoc (l.foldl (fun acc x => setAssoc acc x id) m) v =
      (if v ∈ l then some id else lookupAssoc m v) := by
  induction l generalizing m with
  | nil => simp
  | cons hd tl ih =>
    simp only [List.foldl_cons]
    rw [ih]
    by_cases hv : v ∈ tl
    · simp [hv]
    · by_cases hvh : v = hd
      · subst hvh
        simp [hv, lookupAssoc_setAssoc_self]
      · simp [hv, hvh, lookupAssoc_setAssoc_ne _ _ _ _ hvh]

/-- C8: every register call (with a truthy canonical id) updates the
EquivalenceIndex so that each string `sameAs` value of the registered
entity maps to the canonical id — also when the stored record itself is
left untouched (the statement holds for every store state); keys
outside the entity's `sameAs` values keep their previous mapping
(last-write-wins on the written keys only), and no existing key is ever
deleted. -/
theorem c8_same_as_index_update (st : Store) (e : Entity) (fetched processed : Bool)
    (rc : RC) (from? : Option String) (id : String)
    (hid : getStr (replaceIdWithRegistryId e rc) "@id" = some id) (hne : id ≠ "") :
    (∀ v ∈ sameAsStrings (replaceIdWithRegistryId e rc),
      lookupAssoc (st.registerEntity e fetched rc from? processed).2.sameAsIndex v = some id) ∧
    (∀ k, k ∉ sameAsStrings (replaceIdWithRegistryId e rc) →
      lookupAssoc (st.registerEntity e fetched rc from? processed).2.sameAsIndex k =
        lookupAssoc st.sameAsIndex k) ∧
    (∀ k, (lookupAssoc st.sameAsIndex k).isSome = true →
      (lookupAssoc (st.registerEntity e fetched rc from? processed).2.sameAsIndex k).isSome = true) := by
  have hs := registerEntity_sameAsIndex st e fetched processed rc from? id hid hne
  refine ⟨?_, ?_, ?_⟩
  · intro v hv
    rw [hs, lookup_foldl_setAssoc, if_pos hv]
  · intro k hk
    rw [hs, lookup_foldl_setAssoc, if_neg hk]
  · intro k hk
    rw [hs, lookup_foldl_setAssoc]
    by_cases hkm : k ∈ sameAsStrings (replaceIdWithRegistryId e rc)
    · simp [hkm]
    · simpa [hkm] using hk

/-- Witness for C8: registering `entA` maps both its `sameAs` alias and
its original identifier (moved into `sameAs` by canonicalization) to
the canonical registry identifier. -/
theorem c8_same_as_index_update_witness :
    lookupAssoc (emptyStore.registerEntity entA true rcSandbox none false).2.sameAsIndex
        "https://example.com/a" =
      some "https://sandbox.credentialengineregistry.org/resources/ce-1234" :=
  (c8_same_as_index_update emptyStore entA true false rcSandbox none
      "https://sandbox.credentialengineregistry.org/resources/ce-1234" rfl (by decide)).1
    "https://example.com/a" (by decide)

def entNoBadgeCtid : Entity :=
  [("@id", jstr "https://example.com/badge/1"), ("@type", jstr "ceterms:Badge")]

def effEmpty : Eff := ⟨emptyStore, [], [], 0⟩

/-- C5: a top-level entity with no truthy durable identifier and a
(string) identifier not starting with the blank marker makes
`processEntity` log the missing-CTID error and return `undefined`: the
entity is skipped, nothing is registered or fetched, and no exception
is raised (the outcome is `failedUndef`, not `crashed`, so the run
continues). -/
theorem c5_missing_ctid_validation (net : String → Option Entity) (si : SchemaIndex)
    (rc : RC) (entity : Entity) (sourceGraphUrl : Option String) (eff : Eff) (t idStr : String)
    (hty : primaryTypeStr entity = some t)
    (htl : si.topLevelClassURIs.contains t = true)
    (hctid : truthy (getK entity "ceterms:ctid") = false)
    (hid : getStr entity "@id" = some idStr)
    (hnb : jsStartsWith idStr "_:" = false) :
    processEntity net si rc entity sourceGraphUrl eff =
      (POut.failedUndef, logErr eff ("No CTID found in entity " ++ idStr)) := by
  unfold processEntity
  rw [hty]
  simp only [htl, hctid, hid, hnb]
  simp

/-- Witness for C5 at a concrete Badge entity with no ctid. -/
theorem c5_missing_ctid_validation_witness :
    processEntity (fun _ => none)
        ⟨["ceterms:Badge"], fun _ => [], fun _ => [], fun _ => [], []⟩
        rcSandbox entNoBadgeCtid none effEmpty =
      (POut.failedUndef, logErr effEmpty "No CTID found in entity https://example.com/badge/1") :=
  c5_missing_ctid_validation (fun _ => none)
    ⟨["ceterms:Badge"], fun _ => [], fun _ => [], fun _ => [], []⟩
    rcSandbox entNoBadgeCtid none effEmpty "ceterms:Badge" "https://example.com/badge/1"
    rfl rfl rfl rfl rfl

/-- C10: a string pointer value with no exact/equivalence/ctid match in
the store, no registry-URL-pattern match, and no `http` prefix
contributes no resolution output at all: the string branch of
`processEntity`'s value loop pushes nothing and leaves the store, the
error log and the fetch log untouched, so the value silently disappears
from the resolved property. -/
theorem c10_plain_string_reference_dropped (net : String → Option Entity) (rc : RC)
    (docId? : Option String) (v : String) (eff : Eff)
    (hfuzzy : eff.store.getFuzzy v none = none)
    (hpat : extractCtidFromUrl v = none)
    (hhttp : jsStartsWith v "http" = false) :
    resolveStringRef net rc docId? v eff = ValRes.push [] eff := by
  unfold resolveStringRef
  rw [hfuzzy, hpat, hhttp]
  simp

/-- Witness for C10: a bare ctid string (`"ce-1234"`) on an empty store
is dropped without any effect. -/
theorem c10_plain_string_reference_dropped_witness :
    resolveStringRef (fun _ => none) rcSandbox none "ce-1234" effEmpty =
      ValRes.push [] effEmpty :=
  c10_plain_string_reference_dropped (fun _ => none) rcSandbox none "ce-1234" effEmpty
    rfl rfl rfl

/-- Schema fixture: Badge is a top-level credential subclass whose
`ceterms:ownedBy` points at organizations. -/
def siBadge : SchemaIndex :=
  ⟨["ceterms:Badge", "ceterms:Organization", "ceterms:Credential"],
   fun c => if c = "ceterms:Badge" then ["ceterms:ownedBy"] else [],
   fun _ => [],
   fun p => if p = "ceterms:ownedBy" then ["ceterms:Organization"] else [],
   [("ceterms:Badge", "ceterms:Credential")]⟩

/-- A URL of the exact shape `extractCtidFromUrl`'s regex matches (the
regex has four hex groups 8-4-4-12, not the five of a full ce-UUID). -/
def c1url : String :=
  "https://staging.credentialengineregistry.org/resources/ce-00000000-0000-0000-000000000000"

def c1ent : Entity :=
  [("@id", jstr "http://example.com/credential/1"), ("@type", jstr "ceterms:Badge"),
   ("ceterms:ctid", jstr "ce-9999"), ("ceterms:ownedBy", jstr c1url)]

/-- Resolved value of one property of a successful `processEntity`
outcome, for stating concrete runs compactly. -/
def okDocProp (p : POut) (k : String) : Option JVal :=
  match p with
  | POut.ok d => getK d k
  | _ => none

/-- C1 (exhibiting the defect): for a pointer value matching the
registry-resource URL pattern, no fetch is performed, but the
synthesized reference is `{registryBaseUrl}/resources/{matched
environment base URL}` — `Array.prototype.find` in `extractCtidFromUrl`
returns the matched environment, not the captured ctid — instead of the
documented `{registryBaseUrl}/resources/{ctid}`. -/
theorem c1_registry_pattern_reference_synthesizes_env_not_ctid :
    extractCtidFromUrl c1url = some "https://staging.credentialengineregistry.org" ∧
    okDocProp (processEntity (fun _ => none) siBadge rcSandbox c1ent none effEmpty).1
        "ceterms:ownedBy" =
      some (jarr [jstr
        "https://sandbox.credentialengineregistry.org/resources/https://staging.credentialengineregistry.org"]) ∧
    (processEntity (fun _ => none) siBadge rcSandbox c1ent none effEmpty).2.fetches = [] ∧
    okDocProp (processEntity (fun _ => none) siBadge rcSandbox c1ent none effEmpty).1
        "ceterms:ownedBy" ≠
      some (jarr [jstr
        "https://sandbox.credentialengineregistry.org/resources/ce-00000000-0000-0000-000000000000"]) := by
  refine ⟨rfl, rfl, rfl, ?_⟩
  intro h
  rw [show okDocProp (processEntity (fun _ => none) siBadge rcSandbox c1ent none effEmpty).1
        "ceterms:ownedBy" =
      some (jarr [jstr
        "https://sandbox.credentialengineregistry.org/resources/https://staging.credentialengineregistry.org"])
    from rfl] at h
  simp at h

/-- Network fixture: the referenced organization URL answers ok but
with a non-CTDL `@context`. -/
def wrongCtxNet : String → Option Entity := fun u =>
  if u = "https://example.com/theOrganization" then
    some [("@context", jstr "https://example.com/other-context"), ("@id", jstr u),
          ("@type", jstr "ceterms:Organization"), ("ceterms:ctid", jstr "ce-1111")]
  else none

def c2ent : Entity :=
  [("@id", jstr "http://example.com/credential/1"), ("@type", jstr "ceterms:Badge"),
   ("ceterms:ctid", jstr "ce-9999"),
   ("ceterms:ownedBy", jarr [jstr "https://example.com/theOrganization"])]

/-- C2 (exhibiting the defect): when dereferencing an unresolved
HTTP(S) pointer value fails (here: wrong vocabulary context), the
`core.error` is logged, but `processEntity` then dereferences the
undefined result (`tempArray.push(newEntity["@id"])` has no null guard,
unlike `processConditionProfile`) and raises a TypeError: the outcome is
`crashed`, not a resolved document — the rest of the entity is NOT
processed and the exception propagates out of `processEntity`, so the
failure is not contained to the one reference. -/
theorem c2_unresolved_fetch_crashes_processing :
    (processEntity wrongCtxNet siBadge rcSandbox c2ent none effEmpty).1 = POut.crashed ∧
    (processEntity wrongCtxNet siBadge rcSandbox c2ent none effEmpty).2.errors =
      ["Error fetching https://example.com/theOrganization: the fetched entity does not have the expected CTDL context."] ∧
    (processEntity wrongCtxNet siBadge rcSandbox c2ent none effEmpty).2.fetches =
      ["https://example.com/theOrganization"] ∧
    (processEntity wrongCtxNet siBadge rcSandbox c2ent none effEmpty).2.store = emptyStore :=
  ⟨rfl, rfl, rfl, rfl⟩

theorem getK_eq_lookupAssoc (e : Entity) (k : String) : getK e k = lookupAssoc e k := rfl

theorem setK_eq_setAssoc (e : Entity) (k : String) (v : JVal) : setK e k v = setAssoc e k v := rfl

theorem getK_setK_ne (e : Entity) (k k' : String) (v : JVal) (h : k' ≠ k) :
    getK (setK e k v) k' = getK e k' := by
  rw [getK_eq_lookupAssoc, setK_eq_setAssoc, lookupAssoc_setAssoc_ne _ _ _ _ h,
    getK_eq_lookupAssoc]

theorem getK_of_getStr (e : Entity) (k s : String) (h : getStr e k = some s) :
    getK e k = some (jstr s) := by
  unfold getStr at h
  cases hk : getK e k with
  | none => rw [hk] at h; simp at h
  | some v =>
    rw [hk] at h
    cases v with
    | jstr s' =>
      simp only [Option.some.injEq] at h
      rw [h]

    | jarr l => simp at h
    | jobj o => simp at h
    | jother b => simp at h

/-- Properties outside the pointer list are untouched by the
pointer-resolution loop. -/
theorem resolveProps_offlist (net : String → Option Entity) (si : SchemaIndex) (rc : RC)
    (eid : String) :
    ∀ (props : List String) (doc : Entity) (eff : Eff) (doc' : Entity) (eff' : Eff),
      resolveProps net si rc eid props doc eff = PropsRes.ok doc' eff' →
      ∀ k, k ∉ props → getK doc' k = getK doc k := by
  intro props
  induction props with
  | nil =>
    intro doc eff doc' eff' h k _
    unfold resolveProps at h
    simp only [PropsRes.ok.injEq] at h
    rw [← h.1]
  | cons p ps ih =>
    intro doc eff doc' eff' h k hk
    have hkp : k ≠ p := fun hc => hk (hc ▸ List.mem_cons_self p ps)
    have hkps : k ∉ ps := fun hc => hk (List.mem_cons_of_mem p hc)
    unfold resolveProps at h
    by_cases ht : truthy (getK doc p) = true
    · rw [if_pos ht] at h
      cases hres : resolveValues net si rc eid (getStr doc "@id") p
          (arrayOf ((getK doc p).getD (jarr []))) 0 [] eff with
      | done tmp eff2 =>
        rw [hres] at h
        rw [ih (setK doc p (jarr tmp)) eff2 doc' eff' h k hkps, getK_setK_ne _ _ _ _ hkp]
      | abortUndef e2 => rw [hres] at h; simp at h
      | crash e2 => rw [hres] at h; simp at h
    · rw [if_neg ht] at h
      exact ih doc eff doc' eff' h k hkps

/-- The canonicalization step skips an already-canonical identifier. -/
theorem canonicalizeDocId_skip (entity : Entity) (rc : RC) (idStr : String)
    (hid : getStr entity "@id" = some idStr)
    (hcanon : jsStartsWith idStr (rc.registryBaseUrl ++ "/resources/") = true ∨
      jsStartsWith idStr "_:" = true) :
    canonicalizeDocId entity rc = some entity := by
  have hk := getK_of_getStr entity "@id" idStr hid
  unfold canonicalizeDocId
  rw [hk]
  rcases hcanon with h | h <;> simp [h]

/-- C9: a top-level entity whose identifier is already canonical
(registry-resource form or blank) passes through `processEntity` with
its identifier unrewritten, its `ceterms:sameAs` unextended, and every
non-pointer property untouched — the only changes are the resolved
pointer properties. -/
theorem c9_canonical_entity_idempotent (net : String → Option Entity) (si : SchemaIndex)
    (rc : RC) (entity : Entity) (sourceGraphUrl : Option String) (eff : Eff)
    (t idStr : String) (doc : Entity) (eff' : Eff)
    (hty : primaryTypeStr entity = some t)
    (htl : si.topLevelClassURIs.contains t = true)
    (hid : getStr entity "@id" = some idStr)
    (hcanon : jsStartsWith idStr (rc.registryBaseUrl ++ "/resources/") = true ∨
      jsStartsWith idStr "_:" = true)
    (hptr : "@id" ∉ dedupKeepFirst (si.tlPointerProps t ++ si.cpPointerProps t))
    (hsa : "ceterms:sameAs" ∉ dedupKeepFirst (si.tlPointerProps t ++ si.cpPointerProps t))
    (hok : processEntity net si rc entity sourceGraphUrl eff = (POut.ok doc, eff')) :
    getK doc "@id" = getK entity "@id" ∧
    getK doc "ceterms:sameAs" = getK entity "ceterms:sameAs" ∧
    (∀ k, k ∉ dedupKeepFirst (si.tlPointerProps t ++ si.cpPointerProps t) →
      getK doc k = getK entity k) := by
  have hbody : processEntityBody net si rc entity t sourceGraphUrl eff = (POut.ok doc, eff') := by
    unfold processEntity at hok
    rw [hty] at hok
    simp only [htl, not_true, if_neg (by simp : ¬ ¬ True)] at hok
    by_cases hct : truthy (getK entity "ceterms:ctid") = true
    · simpa [hct] using hok
    · simp only [hct, Bool.false_eq_true, not_false_eq_true, if_pos trivial, hid] at hok
      by_cases hb : jsStartsWith idStr "_:" = true
      · simpa [hb] using hok
      · simp [hb] at hok
  unfold processEntityBody at hbody
  rw [canonicalizeDocId_skip entity rc idStr hid hcanon] at hbody
  simp only [] at hbody
  cases hres : resolveProps net si rc ((getStr entity "@id").getD "undefined")
      (dedupKeepFirst (si.tlPointerProps t ++ si.cpPointerProps t)) entity eff with
  | ok d e2 =>
    rw [hres] at hbody
    simp only [Prod.mk.injEq, POut.ok.injEq] at hbody
    have hd : d = doc := hbody.1
    subst hd
    have hoff := resolveProps_offlist net si rc ((getStr entity "@id").getD "undefined")
      (dedupKeepFirst (si.tlPointerProps t ++ si.cpPointerProps t)) entity eff d e2 hres
    exact ⟨hoff "@id" hptr, hoff "ceterms:sameAs" hsa, hoff⟩
  | abortUndef e2 =>
    rw [hres] at hbody
    simp at hbody
  | crash e2 =>
    rw [hres] at hbody
    simp at hbody

def entCanon : Entity :=
  [("@id", jstr "https://sandbox.credentialengineregistry.org/resources/ce-9999"),
   ("@type", jstr "ceterms:Badge"), ("ceterms:ctid", jstr "ce-9999"),
   ("ceterms:ownedBy", jstr "ce-other")]

def c9doc : Entity :=
  [("@id", jstr "https://sandbox.credentialengineregistry.org/resources/ce-9999"),
   ("@type", jstr "ceterms:Badge"), ("ceterms:ctid", jstr "ce-9999"),
   ("ceterms:ownedBy", jarr [])]

def c9eff : Eff :=
  ⟨⟨[("https://sandbox.credentialengineregistry.org/resources/ce-9999", ⟨true, c9doc, true, none⟩)],
    [], []⟩, [], [], 0⟩

/-- Witness for C9: an already-canonical Badge passes through with only
its pointer property rewritten. -/
theorem c9_canonical_entity_idempotent_witness :
    getK c9doc "@id" = getK entCanon "@id" ∧
    getK c9doc "ceterms:sameAs" = getK entCanon "ceterms:sameAs" ∧
    (∀ k, k ∉ dedupKeepFirst (siBadge.tlPointerProps "ceterms:Badge" ++
        siBadge.cpPointerProps "ceterms:Badge") →
      getK c9doc k = getK entCanon k) :=
  c9_canonical_entity_idempotent (fun _ => none) siBadge rcSandbox entCanon none effEmpty
    "ceterms:Badge" "https://sandbox.credentialengineregistry.org/resources/ce-9999" c9doc c9eff
    rfl rfl rfl (Or.inl rfl) (by decide) (by decide) rfl

/-- Every record is stored under its own entity's `@id` — established
by `registerEntity`, which always keys the record by the canonicalized
entity's identifier. -/
def storeCoherent (st : Store) : Prop :=
  ∀ k r, st.get k = some r → getStr r.entity "@id" = some k

/-- Inversion of membership in the extracted dependents. -/
theorem extractDeps_mem (si : SchemaIndex) (st : Store) (entityId : String) (e : Entity)
    (h : e ∈ extractDeps si st entityId) :
    ∃ id ∈ (lookupAssoc st.entitiesReferencedBy entityId).getD [],
      (st.get id).map (·.entity) = some e ∧
      ∃ s, getStr e "@id" = some s ∧ s ≠ "" ∧
        (jsStartsWith s "_:" = true ∨ graphPrimaryIsTopLevel si e = false) := by
  unfold extractDeps at h
  obtain ⟨id, hid, hf⟩ := List.mem_filterMap.mp h
  unfold depKeep at hf
  refine ⟨id, hid, ?_⟩
  cases hg : (st.get id).map (·.entity) with
  | none => rw [hg] at hf; simp at hf
  | some ent =>
    rw [hg] at hf
    simp only [] at hf
    cases hs : getStr ent "@id" with
    | none => rw [hs] at hf; simp at hf
    | some s =>
      rw [hs] at hf
      simp only [] at hf
      split at hf
      · rename_i hcond
        have he : ent = e := by injection hf
        subst he
        refine ⟨rfl, s, hs, hcond.1, ?_⟩
        rcases hcond.2 with hb | ht
        · exact Or.inl hb
        · refine Or.inr ?_
          cases hx : graphPrimaryIsTopLevel si ent with
          | false => rfl
          | true => exact absurd hx ht
      · simp at hf

/-- Under store coherence a kept dependent's identifier is the edge id
it was looked up by. -/
theorem depKeep_id (si : SchemaIndex) (st : Store) (id : String) (e : Entity)
    (hcoh : storeCoherent st) (h : depKeep si st id = some e) :
    getStr e "@id" = some id := by
  unfold depKeep at h
  cases hg : st.get id with
  | none => rw [hg] at h; simp at h
  | some rec' =>
    rw [hg] at h
    simp only [Option.map_some'] at h
    have hco := hcoh id rec' hg
    rw [hco] at h
    simp only [] at h
    split at h
    · have : rec'.entity = e := by injection h
      rw [← this]
      exact hco
    · simp at h

/-- Mapping the extracted dependents to their identifiers gives exactly
the kept edge ids, in order. -/
theorem filterMap_map_ids (l : List String) (f : String → Option Entity)
    (hf : ∀ id e, f id = some e → getStr e "@id" = some id) :
    (l.filterMap f).map (fun e => getStr e "@id") =
      (l.filter (fun id => (f id).isSome)).map some := by
  induction l with
  | nil => rfl
  | cons hd tl ih =>
    cases hfd : f hd with
    | none => simp [List.filterMap_cons, hfd, List.filter_cons, ih]
    | some e => simp [List.filterMap_cons, hfd, List.filter_cons, ih, hf hd e hfd]

/-- C6 (amended): for an identifier with no record the extraction is
`undefined`; for one with a record it returns the CTDL context and the
root entity followed by exactly the kept one-hop dependents in edge
insertion order, every dependent being blank-identified or of
non-top-level primary type; the dependents' identifiers are pairwise
distinct (given the duplicate-free edge list `addReference` maintains),
and none of them equals the root identifier UNLESS the edge list
contains a self-edge — a blank-identified root that references itself
reappears, so the original "no identifier appears twice" fails there
(see the counterexample). -/
theorem c6_extract_graph_amended (si : SchemaIndex) (st : Store) (entityId : String) (rc : RC)
    (hcoh : storeCoherent st)
    (hnodup : ((lookupAssoc st.entitiesReferencedBy entityId).getD []).Nodup) :
    (st.get entityId = none → extractGraphForEntity si st entityId rc = none) ∧
    (∀ record, st.get entityId = some record →
      extractGraphForEntity si st entityId rc =
        some ⟨ctdlContext, record.entity :: extractDeps si st entityId⟩ ∧
      (∀ e ∈ extractDeps si st entityId, ∃ s, getStr e "@id" = some s ∧ s ≠ "" ∧
        (jsStartsWith s "_:" = true ∨ graphPrimaryIsTopLevel si e = false)) ∧
      ((extractDeps si st entityId).map (fun e => getStr e "@id")).Nodup ∧
      (entityId ∉ (lookupAssoc st.entitiesReferencedBy entityId).getD [] →
        ∀ e ∈ extractDeps si st entityId, getStr e "@id" ≠ some entityId)) := by
  constructor
  · intro h
    unfold extractGraphForEntity
    rw [h]
  · intro record h
    refine ⟨by unfold extractGraphForEntity; rw [h], ?_, ?_, ?_⟩
    · intro e he
      obtain ⟨id, _, _, s, hs, hne, hor⟩ := extractDeps_mem si st entityId e he
      exact ⟨s, hs, hne, hor⟩
    · rw [extractDeps,
        filterMap_map_ids _ _ (fun id e hke => depKeep_id si st id e hcoh hke)]
      exact (hnodup.filter _).map (fun a b hab => Option.some.inj hab)
    · intro hroot e he hcontra
      obtain ⟨id, hid, hmap, s, hs, _, _⟩ := extractDeps_mem si st entityId e he
      cases hg : st.get id with
      | none => rw [hg] at hmap; simp at hmap
      | some rec' =>
        rw [hg] at hmap
        simp only [Option.map_some', Option.some.injEq] at hmap
        have hco := hcoh id rec' hg
        rw [hmap] at hco
        rw [hco] at hcontra
        have : id = entityId := by injection hcontra
        subst this
        exact hroot hid

def c6loopEnt : Entity := [("@id", jstr "_:b1"), ("@type", jstr "ceterms:Credential")]

/-- Counterexample to C6 as stated: a blank-identified top-level entity
that references itself (a register call followed by a self
`addReference`, as a self-embedding produces) yields a graph in which
the identifier `_:b1` appears twice — as the root and again as a
dependent — contradicting "no identifier appears twice in the graph
list". -/
theorem c6_duplicate_identifier_counterexample :
    (extractGraphForEntity siBadge
        (((emptyStore.registerEntity c6loopEnt false rcSandbox none false).2).addReference
          "_:b1" "_:b1")
        "_:b1" rcSandbox).map (fun g => g.graph.map (fun e => getStr e "@id")) =
      some [some "_:b1", some "_:b1"] := rfl

theorem lookupAssoc_pair {α : Type} (a b : String) (va vb : α) (k : String) (r : α)
    (h : lookupAssoc [(a, va), (b, vb)] k = some r) :
    (k = a ∧ r = va) ∨ (k = b ∧ r = vb) := by
  by_cases hk : a = k
  · rw [lookupAssoc_cons_pos _ _ _ hk] at h
    exact Or.inl ⟨hk.symm, by injection h with h'; exact h'.symm⟩
  · rw [lookupAssoc_cons_neg _ _ _ hk] at h
    by_cases hk2 : b = k
    · rw [lookupAssoc_cons_pos _ _ _ hk2] at h
      exact Or.inr ⟨hk2.symm, by injection h with h'; exact h'.symm⟩
    · rw [lookupAssoc_cons_neg _ _ _ hk2, lookupAssoc_nil] at h
      simp at h

def c6wRootId : String := "https://sandbox.credentialengineregistry.org/resources/ce-7777"

def c6wRoot : Entity := [("@id", jstr c6wRootId), ("@type", jstr "ceterms:Credential")]

def c6wDep : Entity := [("@id", jstr "_:b9"), ("@type", jstr "ceterms:ConditionProfile")]

def c6wStore : Store :=
  ⟨[(c6wRootId, ⟨true, c6wRoot, true, none⟩), ("_:b9", ⟨false, c6wDep, false, none⟩)],
   [], [(c6wRootId, ["_:b9"])]⟩

theorem c6wStore_coherent : storeCoherent c6wStore := by
  intro k r h
  rcases lookupAssoc_pair c6wRootId "_:b9" _ _ k r h with ⟨hk, hr⟩ | ⟨hk, hr⟩ <;>
    subst hk <;> subst hr <;> rfl

/-- Witness for C6 (amended) at a concrete two-record store. -/
theorem c6_extract_graph_amended_witness :
    extractGraphForEntity siBadge c6wStore c6wRootId rcSandbox =
      some ⟨ctdlContext, c6wRoot :: extractDeps siBadge c6wStore c6wRootId⟩ ∧
    ((extractDeps siBadge c6wStore c6wRootId).map (fun e => getStr e "@id")).Nodup :=
  let happ := (c6_extract_graph_amended siBadge c6wStore c6wRootId rcSandbox
    c6wStore_coherent (by decide)).2 ⟨true, c6wRoot, true, none⟩ rfl
  ⟨happ.1, happ.2.2.1⟩

/-! ## Stable-sort lemmas for the publication orderer -/

theorem stableInsert_congr {α : Type} (le1 le2 : α → α → Bool)
    (h : ∀ a b, le1 a b = le2 a b) (x : α) (l : List α) :
    stableInsert le1 x l = stableInsert le2 x l := by
  induction l with
  | nil => rfl
  | cons y ys ih =>
    unfold stableInsert
    rw [h x y, ih]

theorem stableSort_congr {α : Type} (le1 le2 : α → α → Bool)
    (h : ∀ a b, le1 a b = le2 a b) (l : List α) :
    stableSort le1 l = stableSort le2 l := by
  induction l with
  | nil => rfl
  | cons x xs ih =>
    unfold stableSort
    rw [ih, stableInsert_congr le1 le2 h]

theorem stableInsert_perm {α : Type} (le : α → α → Bool) (x : α) (l : List α) :
    (stableInsert le x l).Perm (x :: l) := by
  induction l with
  | nil => exact List.Perm.refl _
  | cons y ys ih =>
    unfold stableInsert
    by_cases h : le x y = true
    · rw [if_pos h]
    · rw [if_neg h]
      exact (List.Perm.cons y ih).trans (List.Perm.swap x y ys)

theorem stableSort_perm {α : Type} (le : α → α → Bool) (l : List α) :
    (stableSort le l).Perm l := by
  induction l with
  | nil => exact List.Perm.refl _
  | cons x xs ih =>
    exact (stableInsert_perm le x (stableSort le xs)).trans (List.Perm.cons x ih)

theorem stableInsert_sorted {α : Type} (key : α → Nat) (x : α) (l : List α)
    (hl : l.Pairwise (fun a b => key a ≤ key b)) :
    (stableInsert (fun a b => decide (key a ≤ key b)) x l).Pairwise
      (fun a b => key a ≤ key b) := by
  induction l with
  | nil => simp [stableInsert]
  | cons y ys ih =>
    rw [List.pairwise_cons] at hl
    unfold stableInsert
    by_cases hle : key x ≤ key y
    · rw [if_pos (by simpa using hle)]
      refine List.pairwise_cons.mpr ⟨?_, List.pairwise_cons.mpr ⟨hl.1, hl.2⟩⟩
      intro z hz
      rcases List.mem_cons.mp hz with rfl | hz'
      · exact hle
      · exact le_trans hle (hl.1 z hz')
    · rw [if_neg (by simpa using hle)]
      refine List.pairwise_cons.mpr ⟨?_, ih hl.2⟩
      intro z hz
      have hz' : z ∈ x :: ys :=
        (stableInsert_perm (fun a b => decide (key a ≤ key b)) x ys).mem_iff.mp hz
      rcases List.mem_cons.mp hz' with rfl | hz''
      · exact Nat.le_of_lt (Nat.lt_of_not_le hle)
      · exact hl.1 z hz''

theorem stableSort_sorted {α : Type} (key : α → Nat) (l : List α) :
    (stableSort (fun a b => decide (key a ≤ key b)) l).Pairwise
      (fun a b => key a ≤ key b) := by
  induction l with
  | nil => simp [stableSort]
  | cons x xs ih =>
    exact stableInsert_sorted key x _ ih

theorem stableInsert_filter_key {α : Type} (key : α → Nat) (n : Nat) (x : α) (l : List α) :
    (stableInsert (fun a b => decide (key a ≤ key b)) x l).filter (fun a => decide (key a = n)) =
      (if key x = n then x :: l.filter (fun a => decide (key a = n))
       else l.filter (fun a => decide (key a = n))) := by
  induction l with
  | nil =>
    by_cases hx : key x = n <;> simp [stableInsert, List.filter, hx]
  | cons y ys ih =>
    unfold stableInsert
    by_cases hle : key x ≤ key y
    · rw [if_pos (by simpa using hle)]
      by_cases hx : key x = n <;> by_cases hy : key y = n <;>
        simp [List.filter_cons, hx, hy]
    · rw [if_neg (by simpa using hle)]
      by_cases hx : key x = n
      · have hyn : ¬ key y = n := by
          intro hc
          exact hle (by omega)
        simp [List.filter_cons, hx, hyn, ih]
      · by_cases hy : key y = n <;> simp [List.filter_cons, hx, hy, ih]

theorem stableSort_filter_key {α : Type} (key : α → Nat) (n : Nat) (l : List α) :
    (stableSort (fun a b => decide (key a ≤ key b)) l).filter (fun a => decide (key a = n)) =
      l.filter (fun a => decide (key a = n)) := by
  induction l with
  | nil => rfl
  | cons x xs ih =>
    unfold stableSort
    rw [stableInsert_filter_key]
    by_cases hx : key x = n <;> simp [List.filter_cons, hx, ih]

/-- Numeric sort key realizing the comparator: organization descendants
lowest, then credential descendants, then the rest (a class descending
from both — impossible when the organization and credential classes are
unrelated in the schema — would rank lowest of all). -/
def pubRank (si : SchemaIndex) (r : StoreEntity) : Nat :=
  (if recDescendsFrom si r "ceterms:Organization" then 0 else 2) +
  (if recDescendsFrom si r "ceterms:Credential" then 0 else 1)

/-- The claim's publication tier: organization descendants, credential
descendants, everything else. -/
def pubTier (si : SchemaIndex) (r : StoreEntity) : Nat :=
  if recDescendsFrom si r "ceterms:Organization" then 0
  else if recDescendsFrom si r "ceterms:Credential" then 1
  else 2

theorem pubComparator_le_iff (si : SchemaIndex) (a b : StoreEntity) :
    pubComparator si a b ≤ 0 ↔ pubRank si a ≤ pubRank si b := by
  unfold pubComparator pubRank
  cases h1 : recDescendsFrom si a "ceterms:Organization" <;>
    cases h2 : recDescendsFrom si b "ceterms:Organization" <;>
      cases h3 : recDescendsFrom si a "ceterms:Credential" <;>
        cases h4 : recDescendsFrom si b "ceterms:Credential" <;>
          simp [h1, h2, h3, h4]

/-- Tier comparison follows rank comparison for records whose type does
not descend from both the organization and the credential class. -/
theorem pubTier_mono_of_rank (si : SchemaIndex) (a b : StoreEntity)
    (ha : ¬(recDescendsFrom si a "ceterms:Organization" = true ∧
            recDescendsFrom si a "ceterms:Credential" = true))
    (hb : ¬(recDescendsFrom si b "ceterms:Organization" = true ∧
            recDescendsFrom si b "ceterms:Credential" = true))
    (h : pubRank si a ≤ pubRank si b) : pubTier si a ≤ pubTier si b := by
  unfold pubRank at h
  unfold pubTier
  cases h1 : recDescendsFrom si a "ceterms:Organization" <;>
    cases h2 : recDescendsFrom si b "ceterms:Organization" <;>
      cases h3 : recDescendsFrom si a "ceterms:Credential" <;>
        cases h4 : recDescendsFrom si b "ceterms:Credential" <;>
          simp_all

/-- Tier membership coincides with rank membership (shifted by one) for
records outside the double-descent corner. -/
theorem pubTier_eq_iff_rank (si : SchemaIndex) (r : StoreEntity) (n : Nat)
    (hr : ¬(recDescendsFrom si r "ceterms:Organization" = true ∧
            recDescendsFrom si r "ceterms:Credential" = true)) :
    (pubTier si r = n) ↔ (pubRank si r = n + 1) := by
  unfold pubRank pubTier
  cases h1 : recDescendsFrom si r "ceterms:Organization" <;>
    cases h2 : recDescendsFrom si r "ceterms:Credential" <;>
      simp_all <;> omega

/-- A class with no metadata entry (and not equal to the ancestor) is
not a descendant: the walk answers false rather than failing. -/
theorem classIsDescendantOf_unknown (si : SchemaIndex) (c ancestor : String)
    (hne : c ≠ ancestor) (hp : lookupAssoc si.parents c = none) :
    classIsDescendantOf si c ancestor = false := by
  simp [classIsDescendantOf, descendAux, hne, hp]

def pubSorted (si : SchemaIndex) (st : Store) (urlsArray : List String) : List StoreEntity :=
  stableSort (fun a b => pubComparator si a b ≤ 0) (selectEntitiesToPublish si st urlsArray)

/-- C7: `getOrderedEntitiesToPublish` returns the `@id`s of the stably
sorted selection; every selected record matches a source URL (by `@id`
or `sameAs`) and is of top-level primary type; the sorted list is
ordered by publication tier (organization descendants, then credential
descendants, then the rest — given that no occurring type descends from
both, which holds whenever the schema keeps the two classes unrelated);
each tier keeps the store's discovery order; and descendant resolution
answers false for unknown classes instead of failing. -/
theorem c7_publication_ordering (si : SchemaIndex) (st : Store) (urls : List String)
    (hdisj : ∀ r ∈ selectEntitiesToPublish si st urls,
      ¬(recDescendsFrom si r "ceterms:Organization" = true ∧
        recDescendsFrom si r "ceterms:Credential" = true)) :
    getOrderedEntitiesToPublish si st urls =
      (pubSorted si st urls).map (fun r => getK r.entity "@id") ∧
    (∀ r ∈ pubSorted si st urls, matchesUrls urls r = true ∧ isTopLevelForPub si r = true) ∧
    (pubSorted si st urls).Pairwise (fun a b => pubTier si a ≤ pubTier si b) ∧
    (∀ n, (pubSorted si st urls).filter (fun r => decide (pubTier si r = n)) =
      (selectEntitiesToPublish si st urls).filter (fun r => decide (pubTier si r = n))) ∧
    (∀ c ancestor, c ≠ ancestor → lookupAssoc si.parents c = none →
      classIsDescendantOf si c ancestor = false) := by
  have hkey : pubSorted si st urls =
      stableSort (fun a b => decide (pubRank si a ≤ pubRank si b))
        (selectEntitiesToPublish si st urls) :=
    stableSort_congr _ _ (fun a b => decide_eq_decide.mpr (pubComparator_le_iff si a b)) _
  have hperm : (pubSorted si st urls).Perm (selectEntitiesToPublish si st urls) := by
    rw [hkey]
    exact stableSort_perm _ _
  refine ⟨rfl, ?_, ?_, ?_, ?_⟩
  · intro r hr
    have hr' : r ∈ selectEntitiesToPublish si st urls := hperm.mem_iff.mp hr
    unfold selectEntitiesToPublish at hr'
    have h2 := List.mem_filter.mp hr'
    have h1 := List.mem_filter.mp h2.1
    exact ⟨h1.2, h2.2⟩
  · have hsorted : (pubSorted si st urls).Pairwise (fun a b => pubRank si a ≤ pubRank si b) := by
      rw [hkey]
      exact stableSort_sorted _ _
    refine hsorted.imp_of_mem ?_
    intro a b ha hb hr
    exact pubTier_mono_of_rank si a b (hdisj a (hperm.mem_iff.mp ha))
      (hdisj b (hperm.mem_iff.mp hb)) hr
  · intro n
    have e1 : (pubSorted si st urls).filter (fun r => decide (pubTier si r = n)) =
        (pubSorted si st urls).filter (fun r => decide (pubRank si r = n + 1)) :=
      List.filter_congr (fun x hx =>
        decide_eq_decide.mpr (pubTier_eq_iff_rank si x n (hdisj x (hperm.mem_iff.mp hx))))
    have e3 : (selectEntitiesToPublish si st urls).filter
          (fun r => decide (pubTier si r = n)) =
        (selectEntitiesToPublish si st urls).filter
          (fun r => decide (pubRank si r = n + 1)) :=
      List.filter_congr (fun x hx =>
        decide_eq_decide.mpr (pubTier_eq_iff_rank si x n (hdisj x hx)))
    rw [e1, hkey, stableSort_filter_key, ← e3]
  · intro c ancestor hne hp
    exact classIsDescendantOf_unknown si c ancestor hne hp

def siPub : SchemaIndex :=
  ⟨["ceterms:Credential", "ceterms:BachelorDegree", "ceterms:Organization",
    "ceterms:LearningOpportunityProfile"],
   fun _ => [], fun _ => [], fun _ => [],
   [("ceterms:BachelorDegree", "ceterms:Credential")]⟩

def pubEnt (id ty : String) : Entity := [("@id", jstr id), ("@type", jstr ty)]

def c7store : Store :=
  ⟨[("u1", ⟨false, pubEnt "u1" "ceterms:Credential", false, none⟩),
    ("u2", ⟨false, pubEnt "u2" "ceterms:BachelorDegree", false, none⟩),
    ("u3", ⟨false, pubEnt "u3" "ceterms:Organization", false, none⟩),
    ("u4", ⟨false, pubEnt "u4" "ceterms:LearningOpportunityProfile", false, none⟩)],
   [], []⟩

def c7urls : List String := ["u1", "u2", "u3", "u4"]

/-- Witness for C7 at the four-record store of the repository's own
ordering test (Credential, BachelorDegree, Organization,
LearningOpportunityProfile). -/
theorem c7_publication_ordering_witness :
    (pubSorted siPub c7store c7urls).Pairwise
      (fun a b => pubTier siPub a ≤ pubTier siPub b) ∧
    (∀ n, (pubSorted siPub c7store c7urls).filter (fun r => decide (pubTier siPub r = n)) =
      (selectEntitiesToPublish siPub c7store c7urls).filter
        (fun r => decide (pubTier siPub r = n))) :=
  let h := c7_publication_ordering siPub c7store c7urls (by decide)
  ⟨h.2.2.1, h.2.2.2.1⟩
